import Mathlib

set_option autoImplicit false

/-!
Shallow embedding of the monitoring/alerting core of the `bullmq-nodejs`
repository (`src/monitor/setup.js`, the `/events` route, and
`src/scheduler/setup.js`), together with proofs about the behaviour the
specification ascribes to it.

JavaScript numbers that flow through the monitor are modelled as `Option ℚ`:
`none` stands for both `undefined` and `NaN`, which behave identically in
every operation the monitor performs on them (arithmetic yields `NaN`,
comparisons yield `false`, both are falsy).  Division is only ever applied
with a denominator that is either nonzero or paired with a zero numerator
(`0/0 = NaN`), so `jsDiv` maps a zero denominator to `none`.
ISO-timestamp strings are modelled by their underlying instants (`Nat`).
Alert/error message strings are kept abstract (their numeric interpolation is
irrelevant to every property below; only their presence is significant).
-/

namespace BullMon

/-- JS addition on number-or-undefined values (`undefined`/`NaN` propagate). -/
def jsAdd : Option ℚ → Option ℚ → Option ℚ
  | some a, some b => some (a + b)
  | _, _ => none

/-- JS subtraction on number-or-undefined values. -/
def jsSub : Option ℚ → Option ℚ → Option ℚ
  | some a, some b => some (a - b)
  | _, _ => none

/-- JS division; `0/0` (the only zero-denominator case arising here) is `NaN`. -/
def jsDiv : Option ℚ → Option ℚ → Option ℚ
  | some a, some b => if b = 0 then none else some (a / b)
  | _, _ => none

/-- JS `>` comparison: any comparison against `undefined`/`NaN` is `false`. -/
def jsGt : Option ℚ → Option ℚ → Bool
  | some a, some b => decide (b < a)
  | _, _ => false

/-- JS `x || 0`: falsy numbers (`0`, `NaN`) and `undefined` collapse to `0`. -/
def jsOrZero : Option ℚ → ℚ
  | some a => if a = 0 then 0 else a
  | none => 0

/-- JS truthiness of a number-or-undefined value: `0`, `NaN`, `undefined` are falsy. -/
def truthy : Option ℚ → Bool
  | some a => decide (a ≠ 0)
  | none => false

/-- `log.push(x)` followed by `if (log.length > cap) log = log.slice(-cap)`,
the bounded-append discipline used for both the per-queue event logs
(capacity 100) and the alert log (capacity 50). -/
def pushBounded {α : Type} (cap : Nat) (log : List α) (x : α) : List α :=
  let l := log ++ [x]
  if l.length > cap then l.drop (l.length - cap) else l

/-- Association-list read, `obj[key]` on a JS object (first matching key). -/
def getVal {β : Type} : List (String × β) → String → Option β
  | [], _ => none
  | (k, v) :: rest, n => if k = n then some v else getVal rest n

/-- Association-list write, `obj[key] = x` on a JS object: overwrite in place
if the key exists, otherwise append the new key at the end. -/
def setVal {β : Type} : List (String × β) → String → β → List (String × β)
  | [], n, x => [(n, x)]
  | (k, v) :: rest, n, x => if k = n then (n, x) :: rest else (k, v) :: setVal rest n x

/-- The fields of a BullMQ job that the monitor reads (`job?.id`, `job?.name`,
`job.timestamp`, `job.processedOn`), each possibly absent. -/
structure Job where
  id : Option String := none
  name : Option String := none
  timestamp : Option ℚ := none
  processedOn : Option ℚ := none
deriving DecidableEq

/-- The event record built by `addMonitoringEvent`. -/
structure QueueEvent where
  queueName : String
  event : String
  timestamp : Nat
  jobId : Option String
  jobName : Option String
  error : Option String
deriving DecidableEq

/-- One entry of `monitoringData.queues`.  Every field other than the event
log is absent (`none`) until `updateQueueStatus` first writes it. -/
structure QueueSnapshot where
  waiting : Option Nat := none
  active : Option Nat := none
  completed : Option Nat := none
  failed : Option Nat := none
  delayed : Option Nat := none
  paused : Option Bool := none
  lastUpdated : Option Nat := none
  events : List QueueEvent := []
deriving DecidableEq

/-- The bare `{}` object created for a queue on its first event. -/
def emptySnapshot : QueueSnapshot := {}

/-- An entry of `monitoringData.alerts`. -/
structure Alert where
  queueName : String
  event : String
  error : Option String
  timestamp : Nat
  severity : String
deriving DecidableEq

/-- One entry of `monitoringData.performance`.  Per-queue entries carry the
first five fields; the synthetic `system` entry carries only
`avgProcessingTime`, `totalJobs` and `timestamp`. -/
structure PerfEntry where
  completed : Option ℚ := none
  failed : Option ℚ := none
  avgProcessingTime : Option ℚ := none
  totalProcessingTime : Option ℚ := none
  jobCount : Option ℚ := none
  totalJobs : Option ℚ := none
  timestamp : Option ℚ := none
deriving DecidableEq

/-- The event record assembled at the top of `addMonitoringEvent`. -/
def mkMonitoringEvent (queueName event : String) (job : Option Job)
    (error : Option String) (now : Nat) : QueueEvent :=
  { queueName, event, timestamp := now,
    jobId := job.bind Job.id, jobName := job.bind Job.name, error }

/-- `addMonitoringEvent(queueName, event, job, error)`: lazily create the
queue's snapshot object, append the event, trim the log to 100 entries. -/
def addMonitoringEvent (queues : List (String × QueueSnapshot))
    (queueName event : String) (job : Option Job) (error : Option String)
    (now : Nat) : List (String × QueueSnapshot) :=
  let eventData := mkMonitoringEvent queueName event job error now
  let snap := (getVal queues queueName).getD emptySnapshot
  setVal queues queueName { snap with events := pushBounded 100 snap.events eventData }

/-- `getQueueStatus(queueName)`: `monitoringData.queues[queueName] || null`
(a snapshot object is always truthy, even when it only holds an event log). -/
def getQueueStatus (queues : List (String × QueueSnapshot)) (queueName : String) :
    Option QueueSnapshot :=
  getVal queues queueName

/-- The severity assignment inside `checkForAlerts`. -/
def classifySeverity (event : String) (error : Option String) : String :=
  if event = "failed" ∧ error.isSome then "error"
  else if event = "stalled" then "warning"
  else if event = "error" then "critical"
  else "warning"

/-- The alert object built by `checkForAlerts`. -/
def mkAlert (queueName event : String) (error : Option String) (now : Nat) : Alert :=
  { queueName, event, error, timestamp := now,
    severity := classifySeverity event error }

/-- `checkForAlerts(queueName, event, error)`: classify, append, trim to 50. -/
def checkForAlerts (alerts : List Alert) (queueName event : String)
    (error : Option String) (now : Nat) : List Alert :=
  pushBounded 50 alerts (mkAlert queueName event error now)

/-- The zero-initialised per-queue metrics object. -/
def initMetrics : PerfEntry :=
  { completed := some 0, failed := some 0, avgProcessingTime := some 0,
    totalProcessingTime := some 0, jobCount := some 0 }

/-- The `completed` branch of `updatePerformanceMetrics`: increment
`completed`; when `job.processedOn && job.timestamp` is truthy, accumulate
`processedOn - timestamp` and recompute the running average. -/
def completedStep (metrics : PerfEntry) (job : Job) : PerfEntry :=
  let m := { metrics with completed := jsAdd metrics.completed (some 1) }
  if truthy job.processedOn && truthy job.timestamp then
    let processingTime := jsSub job.processedOn job.timestamp
    let total := jsAdd m.totalProcessingTime processingTime
    let count := jsAdd m.jobCount (some 1)
    { m with totalProcessingTime := total, jobCount := count,
             avgProcessingTime := jsDiv total count }
  else m

/-- `updatePerformanceMetrics(queueName, event, job)`: lazily create the
zero metrics object, then dispatch on the event kind. -/
def updatePerformanceMetrics (performance : List (String × PerfEntry))
    (queueName event : String) (job : Job) : List (String × PerfEntry) :=
  let metrics := (getVal performance queueName).getD initMetrics
  let metrics :=
    if event = "completed" then completedStep metrics job
    else if event = "failed" then
      { metrics with failed := jsAdd metrics.failed (some 1) }
    else metrics
  setVal performance queueName metrics

/-- One tick of the 60-second rollup in `startPerformanceMonitoring`:
reduce over every entry of `monitoringData.performance` (including a
previously written `system` entry) and overwrite `performance.system`. -/
def systemRollup (performance : List (String × PerfEntry)) (now : ℚ) :
    List (String × PerfEntry) :=
  let totalJobs := performance.foldl
    (fun sum p => jsAdd (jsAdd sum p.2.completed) p.2.failed) (some 0)
  let avgSum := performance.foldl
    (fun sum p => jsAdd sum p.2.avgProcessingTime) (some 0)
  let avgProcessingTime := jsOrZero (jsDiv avgSum (some (performance.length : ℚ)))
  setVal performance "system"
    { totalJobs := totalJobs, avgProcessingTime := some avgProcessingTime,
      timestamp := some now }

/-- One tick of `checkPerformanceAlerts`: for every entry of
`monitoringData.performance`, an unguarded slow-processing check followed by
a `totalJobs > 0`-guarded failure-ratio check.  The interpolated message
strings are abstracted to constants (only their presence matters). -/
def checkPerformanceAlerts (performance : List (String × PerfEntry))
    (alerts : List Alert) (now : Nat) : List Alert :=
  performance.foldl (fun al p =>
    let al :=
      if jsGt p.2.avgProcessingTime (some 30000) then
        checkForAlerts al p.1 "slow-processing" (some "Slow processing") now
      else al
    let totalJobs := jsAdd p.2.completed p.2.failed
    if jsGt totalJobs (some 0) &&
        jsGt (jsDiv p.2.failed totalJobs) (some (1 / 5 : ℚ)) then
      checkForAlerts al p.1 "high-failure-rate" (some "High failure rate") now
    else al) alerts

/-- The `reduce((sum, s) => sum + s.f, 0)` pattern of `getSystemHealth` over
snapshot count fields; a missing field poisons the sum (`x + undefined = NaN`). -/
def sumCounts (queues : List (String × QueueSnapshot))
    (f : QueueSnapshot → Option Nat) : Option Nat :=
  queues.foldl (fun sum p =>
    match sum, f p.2 with
    | some a, some b => some (a + b)
    | _, _ => none) (some 0)

/-- JS `>` between a number-or-NaN sum and a literal. -/
def jsGtNat : Option Nat → Nat → Bool
  | some a, b => decide (b < a)
  | none, _ => false

/-- The record returned by `getSystemHealth`. -/
structure SystemHealth where
  status : String
  queues : Nat
  totalWaiting : Option Nat
  totalActive : Option Nat
  totalFailed : Option Nat
  criticalAlerts : Nat
deriving DecidableEq

/-- `getSystemHealth()`. -/
def getSystemHealth (queues : List (String × QueueSnapshot))
    (alerts : List Alert) : SystemHealth :=
  let totalWaiting := sumCounts queues QueueSnapshot.waiting
  let totalActive := sumCounts queues QueueSnapshot.active
  let totalFailed := sumCounts queues QueueSnapshot.failed
  let criticalAlerts := (alerts.filter (fun a => a.severity = "critical")).length
  { status :=
      if criticalAlerts > 0 then "critical"
      else if jsGtNat totalFailed 10 then "warning"
      else "healthy",
    queues := queues.length, totalWaiting, totalActive, totalFailed,
    criticalAlerts }

/-- `events.slice(-limit)`: with `limit = 0` this is `slice(0)`, the whole
array; otherwise the last `limit` elements. -/
def jsSliceNeg {α : Type} (l : List α) (n : Nat) : List α :=
  if n = 0 then l else l.drop (l.length - n)

/-- The comparator of the global `/events` branch,
`(a, b) => new Date(b.timestamp) - new Date(a.timestamp)`: newest first. -/
def tsDesc (a b : QueueEvent) : Prop := b.timestamp ≤ a.timestamp

instance : DecidableRel tsDesc := fun a b => Nat.decLe b.timestamp a.timestamp

instance : IsTotal QueueEvent tsDesc :=
  ⟨fun a b => le_total b.timestamp a.timestamp⟩

instance : IsTrans QueueEvent tsDesc :=
  ⟨fun _ _ _ h1 h2 => le_trans h2 h1⟩

/-- The `/events` route handler: per-queue branch `events.slice(-limit)`
(no sorting), global branch: gather every queue's events (re-stamping the
queue name), sort by timestamp descending, take the first `limit`. -/
def getEventsRoute (queues : List (String × QueueSnapshot))
    (queueName : Option String) (limit : Nat) : List QueueEvent :=
  match queueName with
  | some qn =>
      jsSliceNeg (((getVal queues qn).map QueueSnapshot.events).getD []) limit
  | none =>
      let allEvents :=
        (queues.map (fun p => p.2.events.map (fun e => { e with queueName := p.1 }))).flatten
      (List.insertionSort tsDesc allEvents).take limit

/-- One repeatable-job record as returned by the backend
(`{name, pattern, next, id, key}`). -/
structure RepeatableJob where
  name : String
  pattern : String
  next : Option Nat := none
  id : Option String := none
  key : String
deriving DecidableEq

/-- Modelled from the spec: the Job Queue Backend's `removeRepeatableByKey`
(the backend itself is out of scope / not under `src`); per §4.5 and §6 it
deletes the repeatable-job entries carrying the given backend key from the
backend's current list. -/
def removeRepeatableByKey (backend : List RepeatableJob) (key : String) :
    List RepeatableJob :=
  backend.filter (fun j => j.key != key)

/-- `removeRecurringJob(name)`: fetch the backend's repeatable-job list, find
the first entry whose name matches exactly, remove it by its key and return
`true`; return `false` when no entry matches.  The pair is (resulting backend
list, returned boolean). -/
def removeRecurringJob (backend : List RepeatableJob) (name : String) :
    List RepeatableJob × Bool :=
  match backend.find? (fun j => j.name == name) with
  | some job => (removeRepeatableByKey backend job.key, true)
  | none => (backend, false)

/-- The varying arguments of one `addMonitoringEvent` call for a fixed queue. -/
structure EvIn where
  event : String
  job : Option Job := none
  error : Option String := none
  now : Nat := 0
deriving DecidableEq

/-- The varying arguments of one reactive `checkForAlerts` call. -/
structure AlIn where
  queueName : String
  event : String
  error : Option String := none
  now : Nat := 0
deriving DecidableEq

/-- Ingest a sequence of lifecycle events for one queue into an initially
empty queue store. -/
def ingestEvents (queueName : String) (inputs : List EvIn) :
    List (String × QueueSnapshot) :=
  inputs.foldl
    (fun qs i => addMonitoringEvent qs queueName i.event i.job i.error i.now) []

/-- Run a sequence of reactive alert calls against an initially empty log. -/
def alertsAfter (inputs : List AlIn) : List Alert :=
  inputs.foldl
    (fun al i => checkForAlerts al i.queueName i.event i.error i.now) []

/-- Record a sequence of `completed` events for one queue into an initially
empty performance store. -/
def recordCompletions (queueName : String) (jobs : List Job) :
    List (String × PerfEntry) :=
  jobs.foldl (fun perf j => updatePerformanceMetrics perf queueName "completed" j) []

/-- The truthiness test `job.processedOn && job.timestamp` of the source. -/
def truthyJob (j : Job) : Bool := truthy j.processedOn && truthy j.timestamp

/-- The processing times of the completed jobs whose two timestamps are both
truthy — exactly the jobs the source accumulates into the average. -/
def truthyTimes (jobs : List Job) : List ℚ :=
  (jobs.filter truthyJob).map (fun j => j.processedOn.getD 0 - j.timestamp.getD 0)

/-- The shape every per-queue metrics entry maintained by `completedStep`
has: `c` completions so far, `n` of which contributed a processing time,
summing to `s`, with the average derived from `s` and `n`. -/
def perfState (c : Option ℚ) (n : Nat) (s : ℚ) : PerfEntry :=
  { completed := c, failed := some 0,
    avgProcessingTime := some (if n = 0 then 0 else s / (n : ℚ)),
    totalProcessingTime := some s, jobCount := some ((n : ℕ) : ℚ),
    totalJobs := none, timestamp := none }

/-- Stated from the spec's words, for comparison with the code: the
arithmetic mean of a list of processing times, `0` for an empty list. -/
def specMean (l : List ℚ) : ℚ :=
  if l.length = 0 then 0 else l.sum / (l.length : ℚ)

/-- Stated from the spec's words, for comparison with the code: the
processing times `processedAt - enqueuedAt` of exactly those completed
events that carried both timestamps. -/
def specProcessingTimes (jobs : List Job) : List ℚ :=
  jobs.filterMap (fun j =>
    match j.timestamp, j.processedOn with
    | some t0, some t1 => some (t1 - t0)
    | _, _ => none)

/-- The alerts one `checkPerformanceAlerts` tick generates, entry by entry,
before bounded insertion into the alert log. -/
def perfAlertsGenerated (performance : List (String × PerfEntry)) (now : Nat) :
    List Alert :=
  (performance.map (fun p =>
    (if jsGt p.2.avgProcessingTime (some 30000) then
      [mkAlert p.1 "slow-processing" (some "Slow processing") now]
    else []) ++
    (if jsGt (jsAdd p.2.completed p.2.failed) (some 0) &&
        jsGt (jsDiv p.2.failed (jsAdd p.2.completed p.2.failed)) (some (1 / 5 : ℚ)) then
      [mkAlert p.1 "high-failure-rate" (some "High failure rate") now]
    else []))).flatten

/-- A per-queue metrics entry with 2 completions averaging 10 ms and
1 failure, used as a concrete rollup input. -/
def sampleQueueMetric : PerfEntry :=
  { completed := some 2, failed := some 1, avgProcessingTime := some 10,
    totalProcessingTime := some 20, jobCount := some 2 }

/-- A `system`-shaped synthetic entry whose cross-queue average exceeds the
30-second threshold. -/
def sampleSystemEntry : PerfEntry :=
  { avgProcessingTime := some 35000, totalJobs := some 3, timestamp := some 60 }

/-- A repeatable-job record named `nightly` with backend key `k1`. -/
def sampleRepeatable : RepeatableJob :=
  { name := "nightly", pattern := "0 2 * * *", key := "k1" }

/-- A `waiting` event at instant 1, as stored for queue `q`. -/
def sampleEvent1 : QueueEvent :=
  { queueName := "q", event := "waiting", timestamp := 1,
    jobId := none, jobName := none, error := none }

/-- An `active` event at instant 2, as stored for queue `q`. -/
def sampleEvent2 : QueueEvent :=
  { queueName := "q", event := "active", timestamp := 2,
    jobId := none, jobName := none, error := none }

/-! ### Helper lemmas -/

theorem jsAdd_zero (x : Option ℚ) : jsAdd x (some 0) = x := by
  cases x <;> simp [jsAdd]

theorem jsAdd_jsAdd (x : Option ℚ) (a b : ℚ) :
    jsAdd (jsAdd x (some a)) (some b) = jsAdd x (some (a + b)) := by
  cases x <;> simp [jsAdd, add_assoc]

theorem pushBounded_eq_drop {α : Type} (cap : Nat) (l : List α) (x : α) :
    pushBounded cap l x = (l ++ [x]).drop (l.length + 1 - cap) := by
  unfold pushBounded
  by_cases h : (l ++ [x]).length > cap
  · rw [if_pos h]
    simp [List.length_append]
  · rw [if_neg h]
    simp only [List.length_append, List.length_cons, List.length_nil, gt_iff_lt,
      not_lt] at h
    have h0 : l.length + 1 - cap = 0 := by omega
    rw [h0, List.drop_zero]

theorem length_pushBounded {α : Type} (cap : Nat) (l : List α) (x : α) :
    (pushBounded cap l x).length = min (l.length + 1) cap := by
  rw [pushBounded_eq_drop, List.length_drop]
  simp only [List.length_append, List.length_cons, List.length_nil]
  omega

theorem foldl_pushBounded {α : Type} (cap : Nat) (xs : List α) :
    ∀ l : List α, l.length ≤ cap →
      xs.foldl (pushBounded cap) l = (l ++ xs).drop (l.length + xs.length - cap) := by
  induction xs with
  | nil =>
    intro l h
    have h0 : l.length - cap = 0 := by omega
    simp [h0]
  | cons x xs ih =>
    intro l h
    have hlen : (pushBounded cap l x).length ≤ cap := by
      have := length_pushBounded cap l x
      omega
    rw [List.foldl_cons, ih _ hlen, pushBounded_eq_drop]
    have hd : l.length + 1 - cap ≤ (l ++ [x]).length := by
      simp only [List.length_append, List.length_cons, List.length_nil]
      omega
    rw [← List.drop_append_of_le_length hd, List.drop_drop]
    have he : l ++ x :: xs = (l ++ [x]) ++ xs := by simp
    rw [he]
    congr 1
    rw [List.length_drop]
    simp only [List.length_append, List.length_cons, List.length_nil]
    omega

theorem getLast?_pushBounded {α : Type} {cap : Nat} (h : 1 ≤ cap)
    (l : List α) (x : α) : (pushBounded cap l x).getLast? = some x := by
  rw [pushBounded_eq_drop,
    List.drop_append_of_le_length (by omega : l.length + 1 - cap ≤ l.length),
    List.getLast?_concat]

theorem getVal_setVal_self {β : Type} (m : List (String × β)) (n : String) (x : β) :
    getVal (setVal m n x) n = some x := by
  induction m with
  | nil => simp [setVal, getVal]
  | cons p rest ih =>
    by_cases h : p.1 = n
    · simp [setVal, getVal, h]
    · simp [setVal, getVal, h, ih]

theorem setVal_setVal {β : Type} (m : List (String × β)) (n : String) (a b : β) :
    setVal (setVal m n a) n b = setVal m n b := by
  induction m with
  | nil => simp [setVal]
  | cons p rest ih =>
    by_cases h : p.1 = n
    · simp [setVal, h]
    · simp [setVal, h, ih]

theorem setVal_self {β : Type} (m : List (String × β)) (n : String) (v : β)
    (h : getVal m n = some v) : setVal m n v = m := by
  induction m with
  | nil => simp [getVal] at h
  | cons p rest ih =>
    cases p with
    | mk k x =>
      by_cases hp : k = n
      · simp [getVal, hp] at h
        simp [setVal, hp, h]
      · simp [getVal, hp] at h
        simp [setVal, hp, ih h]

theorem addMonitoringEvent_of_some {queues : List (String × QueueSnapshot)}
    {queueName : String} {snap : QueueSnapshot}
    (h : getVal queues queueName = some snap) (event : String) (job : Option Job)
    (error : Option String) (now : Nat) :
    addMonitoringEvent queues queueName event job error now
      = setVal queues queueName
          { snap with events := pushBounded 100 snap.events (mkMonitoringEvent queueName event job error now) } := by
  simp [addMonitoringEvent, h]

theorem getVal_ingest_fold (queueName : String) (inputs : List EvIn) :
    ∀ (queues : List (String × QueueSnapshot))
      (snap : QueueSnapshot), getVal queues queueName = some snap →
      getVal (inputs.foldl
        (fun qs i => addMonitoringEvent qs queueName i.event i.job i.error i.now)
        queues) queueName
      = some { snap with events := (inputs.map (fun i => mkMonitoringEvent queueName i.event i.job i.error i.now)).foldl (pushBounded 100) snap.events } := by
  induction inputs with
  | nil => intro queues snap h; simpa using h
  | cons i is ih =>
    intro queues snap h
    rw [List.foldl_cons, addMonitoringEvent_of_some h]
    rw [ih _ _ (getVal_setVal_self ..)]
    simp

theorem updatePerformanceMetrics_failed_of_some
    {performance : List (String × PerfEntry)} {queueName : String} {m : PerfEntry}
    (h : getVal performance queueName = some m) (job : Job) :
    updatePerformanceMetrics performance queueName "failed" job
      = setVal performance queueName { m with failed := jsAdd m.failed (some 1) } := by
  simp [updatePerformanceMetrics, h]

theorem getVal_failed_fold (queueName : String) (jobs : List Job) :
    ∀ (performance : List (String × PerfEntry)) (m : PerfEntry),
      getVal performance queueName = some m →
      jobs.foldl (fun p j => updatePerformanceMetrics p queueName "failed" j)
        performance
      = setVal performance queueName
          { m with failed := jsAdd m.failed (some ((jobs.length : ℕ) : ℚ)) } := by
  induction jobs with
  | nil =>
    intro performance m h
    simp only [List.foldl_nil, List.length_nil, Nat.cast_zero, jsAdd_zero]
    show performance = setVal performance queueName m
    exact (setVal_self _ _ _ h).symm
  | cons j js ih =>
    intro performance m h
    rw [List.foldl_cons, updatePerformanceMetrics_failed_of_some h,
      ih _ _ (getVal_setVal_self ..), setVal_setVal]
    have harith : (1 : ℚ) + (js.length : ℚ) = (((j :: js).length : ℕ) : ℚ) := by
      push_cast [List.length_cons]
      ring
    rw [jsAdd_jsAdd, harith]

theorem updatePerformanceMetrics_completed_of_some
    {performance : List (String × PerfEntry)} {queueName : String} {m : PerfEntry}
    (h : getVal performance queueName = some m) (job : Job) :
    updatePerformanceMetrics performance queueName "completed" job
      = setVal performance queueName (completedStep m job) := by
  simp [updatePerformanceMetrics, h]

theorem getVal_completed_fold (queueName : String) (jobs : List Job) :
    ∀ (performance : List (String × PerfEntry)) (m : PerfEntry),
      getVal performance queueName = some m →
      getVal (jobs.foldl
        (fun p j => updatePerformanceMetrics p queueName "completed" j)
        performance) queueName
      = some (jobs.foldl completedStep m) := by
  induction jobs with
  | nil => intro performance m h; simpa using h
  | cons j js ih =>
    intro performance m h
    rw [List.foldl_cons, updatePerformanceMetrics_completed_of_some h,
      ih _ _ (getVal_setVal_self ..), List.foldl_cons]

theorem getVal_recordCompletions (queueName : String) (jobs : List Job) :
    (getVal (recordCompletions queueName jobs) queueName).getD initMetrics
      = jobs.foldl completedStep initMetrics := by
  cases jobs with
  | nil => simp [recordCompletions, getVal]
  | cons j js =>
    unfold recordCompletions
    rw [List.foldl_cons]
    have h1 : updatePerformanceMetrics [] queueName "completed" j
        = [(queueName, completedStep initMetrics j)] := by
      simp [updatePerformanceMetrics, getVal, setVal]
    rw [h1, getVal_completed_fold queueName js [(queueName, completedStep initMetrics j)]
      (completedStep initMetrics j) (by simp [getVal]),
      Option.getD_some, List.foldl_cons]

theorem sumCounts_go (f : QueueSnapshot → Option Nat)
    (queues : List (String × QueueSnapshot)) :
    ∀ (a : Nat),
      (∀ p ∈ queues, (f p.2).isSome) →
      queues.foldl (fun sum p =>
        match sum, f p.2 with
        | some x, some b => some (x + b)
        | _, _ => none) (some a)
      = some (a + (queues.map (fun p => (f p.2).getD 0)).sum) := by
  induction queues with
  | nil => intro a _; simp
  | cons p ps ih =>
    intro a h
    obtain ⟨b, hb⟩ := Option.isSome_iff_exists.mp (h p (List.mem_cons_self ..))
    rw [List.foldl_cons]
    simp only [hb]
    rw [ih _ (fun q hq => h q (List.mem_cons_of_mem _ hq))]
    simp [hb, add_assoc]

theorem sumCounts_some (queues : List (String × QueueSnapshot))
    (f : QueueSnapshot → Option Nat) (h : ∀ p ∈ queues, (f p.2).isSome) :
    sumCounts queues f = some ((queues.map (fun p => (f p.2).getD 0)).sum) := by
  unfold sumCounts
  simpa using sumCounts_go f queues 0 h

theorem jsSub_of_truthy {j : Job} (h : truthyJob j = true) :
    jsSub j.processedOn j.timestamp
      = some (j.processedOn.getD 0 - j.timestamp.getD 0) := by
  unfold truthyJob truthy at h
  cases hp : j.processedOn with
  | none => rw [hp] at h; simp at h
  | some p =>
    cases ht : j.timestamp with
    | none => rw [hp, ht] at h; simp at h
    | some t => simp [jsSub]

theorem completedStep_perfState_truthy (c : Option ℚ) (n : Nat) (s : ℚ) (j : Job)
    (hj : truthyJob j = true) :
    completedStep (perfState c n s) j
      = perfState (jsAdd c (some 1)) (n + 1)
          (s + (j.processedOn.getD 0 - j.timestamp.getD 0)) := by
  have hd := jsSub_of_truthy hj
  have hb : (truthy j.processedOn && truthy j.timestamp) = true := hj
  simp only [completedStep, perfState, hb, if_true, hd, jsAdd, jsDiv]
  have hne : ((n : ℚ) + 1) ≠ 0 := by positivity
  simp only [hne, if_false, Nat.add_eq_zero, and_false, Nat.succ_ne_zero]
  push_cast
  norm_num

theorem completedStep_perfState_skip (c : Option ℚ) (n : Nat) (s : ℚ) (j : Job)
    (hj : truthyJob j = false) :
    completedStep (perfState c n s) j = perfState (jsAdd c (some 1)) n s := by
  have hb : (truthy j.processedOn && truthy j.timestamp) = false := hj
  simp only [completedStep, perfState, hb, Bool.false_eq_true, if_false]

theorem truthyTimes_cons_true {j : Job} (hj : truthyJob j = true) (js : List Job) :
    truthyTimes (j :: js)
      = (j.processedOn.getD 0 - j.timestamp.getD 0) :: truthyTimes js := by
  simp [truthyTimes, List.filter_cons, hj]

theorem truthyTimes_cons_false {j : Job} (hj : truthyJob j = false) (js : List Job) :
    truthyTimes (j :: js) = truthyTimes js := by
  simp [truthyTimes, List.filter_cons, hj]

theorem foldl_completedStep_perfState (jobs : List Job) :
    ∀ (c : Option ℚ) (n : Nat) (s : ℚ),
      jobs.foldl completedStep (perfState c n s)
      = perfState (jsAdd c (some ((jobs.length : ℕ) : ℚ)))
          (n + (truthyTimes jobs).length) (s + (truthyTimes jobs).sum) := by
  induction jobs with
  | nil =>
    intro c n s
    simp [truthyTimes, jsAdd_zero]
  | cons j js ih =>
    intro c n s
    rw [List.foldl_cons]
    by_cases hj : truthyJob j = true
    · rw [completedStep_perfState_truthy c n s j hj, ih,
        truthyTimes_cons_true hj js, jsAdd_jsAdd]
      have h1 : (1 : ℚ) + ((js.length : ℕ) : ℚ) = (((j :: js).length : ℕ) : ℚ) := by
        push_cast [List.length_cons]
        ring
      have h2 : n + 1 + (truthyTimes js).length
          = n + ((j.processedOn.getD 0 - j.timestamp.getD 0) :: truthyTimes js).length := by
        simp [List.length_cons]
        omega
      have h3 : s + (j.processedOn.getD 0 - j.timestamp.getD 0) + (truthyTimes js).sum
          = s + ((j.processedOn.getD 0 - j.timestamp.getD 0) :: truthyTimes js).sum := by
        simp [List.sum_cons]
        ring
      rw [h1, h2, h3]
    · have hj' : truthyJob j = false := by simpa using hj
      rw [completedStep_perfState_skip c n s j hj', ih,
        truthyTimes_cons_false hj' js, jsAdd_jsAdd]
      have h1 : (1 : ℚ) + ((js.length : ℕ) : ℚ) = (((j :: js).length : ℕ) : ℚ) := by
        push_cast [List.length_cons]
        ring
      rw [h1]

theorem initMetrics_eq_perfState : initMetrics = perfState (some 0) 0 0 := by
  simp [initMetrics, perfState]

/-! ### Claim theorems -/

/-- C1: Alert severity is a deterministic, total function of
(eventKind, presence of error): the alert appended by `checkForAlerts`
always carries `classifySeverity event error`, and that function maps
`failed` with an error present to `error`, `stalled` to `warning`, the
backend `error` kind to `critical`, and every other combination to
`warning`. -/
theorem alert_severity_classification (queueName event : String)
    (error : Option String) (alerts : List Alert) (now : Nat) (msg : String) :
    (checkForAlerts alerts queueName event error now).getLast?
      = some (mkAlert queueName event error now) ∧
    (mkAlert queueName event error now).severity = classifySeverity event error ∧
    classifySeverity "failed" (some msg) = "error" ∧
    classifySeverity "stalled" error = "warning" ∧
    classifySeverity "error" error = "critical" ∧
    (¬(event = "failed" ∧ error.isSome) → event ≠ "stalled" → event ≠ "error" →
      classifySeverity event error = "warning") := by
  refine ⟨getLast?_pushBounded (by norm_num) _ _, rfl, by simp [classifySeverity],
    by simp [classifySeverity], by simp [classifySeverity], ?_⟩
  intro h1 h2 h3
  unfold classifySeverity
  rw [if_neg h1, if_neg h2, if_neg h3]

/-- Witness for C1 at concrete inputs: an event kind outside the three named
ones falls through to `warning`, and `failed` with an error maps to `error`. -/
theorem alert_severity_classification_witness :
    classifySeverity "waiting" none = "warning" ∧
    classifySeverity "failed" (some "boom") = "error" := by
  have h := alert_severity_classification "q" "waiting" none [] 0 "boom"
  exact ⟨h.2.2.2.2.2 (by simp) (by decide) (by decide), h.2.2.1⟩

/-- C2: `getSystemHealth` returns `critical` when a critical alert exists,
otherwise `warning` when the failed counts over the queue snapshots sum to
more than 10, otherwise `healthy` (stated for states whose snapshots carry
their counts, i.e. snapshots conforming to the data model of the spec). -/
theorem getSystemHealth_status_rule (queues : List (String × QueueSnapshot))
    (alerts : List Alert)
    (h : ∀ p ∈ queues, (p.2.failed).isSome) :
    (getSystemHealth queues alerts).status
      = if 0 < (alerts.filter (fun a => a.severity = "critical")).length then
          "critical"
        else if 10 < (queues.map (fun p => (p.2.failed).getD 0)).sum then
          "warning"
        else "healthy" := by
  simp only [getSystemHealth]
  rw [sumCounts_some queues QueueSnapshot.failed h]
  simp [jsGtNat]

/-- Witness for C2: one snapshot with 20 failed jobs and no alerts yields
status `warning`. -/
theorem getSystemHealth_status_rule_witness :
    (getSystemHealth [("q", { emptySnapshot with failed := some 20 })] []).status
      = if 0 < (([] : List Alert).filter (fun a => a.severity = "critical")).length then
          "critical"
        else if 10 < (([("q", { emptySnapshot with failed := some 20 })].map
            (fun p => (p.2.failed).getD 0)).sum) then
          "warning"
        else "healthy" :=
  getSystemHealth_status_rule [("q", { emptySnapshot with failed := some 20 })] []
    (by decide)

/-- C3: for every sequence of ingested events the per-queue event log is
exactly the 100 most recently appended events in insertion order, and for
every sequence of reactive alert calls the alert log is exactly the 50 most
recently appended alerts in insertion order; neither ever exceeds its
capacity. -/
theorem bounded_logs_fifo (queueName : String) (ivs : List EvIn) (avs : List AlIn) :
    ((getVal (ingestEvents queueName ivs) queueName).getD emptySnapshot).events
        = (ivs.map (fun i => mkMonitoringEvent queueName i.event i.job i.error i.now)).drop
            (ivs.length - 100) ∧
    ((getVal (ingestEvents queueName ivs) queueName).getD emptySnapshot).events.length ≤ 100 ∧
    alertsAfter avs
        = (avs.map (fun i => mkAlert i.queueName i.event i.error i.now)).drop
            (avs.length - 50) ∧
    (alertsAfter avs).length ≤ 50 := by
  have he : ((getVal (ingestEvents queueName ivs) queueName).getD emptySnapshot).events
      = (ivs.map (fun i => mkMonitoringEvent queueName i.event i.job i.error i.now)).drop
          (ivs.length - 100) := by
    cases ivs with
    | nil => simp [ingestEvents, getVal, emptySnapshot]
    | cons i is =>
      unfold ingestEvents
      rw [List.foldl_cons]
      have h1 : addMonitoringEvent [] queueName i.event i.job i.error i.now
          = [(queueName, { emptySnapshot with
              events := [mkMonitoringEvent queueName i.event i.job i.error i.now] })] := by
        simp [addMonitoringEvent, getVal, setVal, pushBounded, emptySnapshot]
      rw [h1, getVal_ingest_fold queueName is
        [(queueName, { emptySnapshot with
          events := [mkMonitoringEvent queueName i.event i.job i.error i.now] })]
        { emptySnapshot with
          events := [mkMonitoringEvent queueName i.event i.job i.error i.now] }
        (by simp [getVal]), Option.getD_some]
      rw [foldl_pushBounded 100
        (is.map (fun i => mkMonitoringEvent queueName i.event i.job i.error i.now))
        [mkMonitoringEvent queueName i.event i.job i.error i.now] (by simp)]
      simp only [List.map_cons, List.singleton_append, List.length_singleton,
        List.length_map, List.length_cons, List.length_nil]
      congr 1
      omega
  have ha : alertsAfter avs
      = (avs.map (fun i => mkAlert i.queueName i.event i.error i.now)).drop
          (avs.length - 50) := by
    have hf : alertsAfter avs
        = (avs.map (fun i => mkAlert i.queueName i.event i.error i.now)).foldl
            (pushBounded 50) [] := by
      unfold alertsAfter checkForAlerts
      rw [List.foldl_map]
    rw [hf, foldl_pushBounded 50 _ [] (by simp)]
    simp
  refine ⟨he, ?_, ha, ?_⟩
  · rw [he, List.length_drop, List.length_map]
    omega
  · rw [ha, List.length_drop, List.length_map]
    omega

/-- C4 counterexample: a completed event whose enqueue timestamp is the
(falsy) number 0 carries both timestamps, yet the code's truthiness guard
skips it, leaving the average at 0 while the mean of the carried processing
times is 5. -/
theorem avg_skips_zero_timestamp :
    ((getVal (recordCompletions "email-queue"
        [{ timestamp := some 0, processedOn := some 5 }]) "email-queue").getD
        initMetrics).avgProcessingTime = some 0 ∧
    ((getVal (recordCompletions "email-queue"
        [{ timestamp := some 0, processedOn := some 5 }]) "email-queue").getD
        initMetrics).jobCount = some 0 ∧
    specProcessingTimes [{ timestamp := some 0, processedOn := some 5 }] = [5] ∧
    specMean [5] = 5 ∧
    (some (0 : ℚ)) ≠ (some (5 : ℚ)) := by
  have hj : truthyJob { timestamp := some 0, processedOn := some 5 } = false := by
    simp [truthyJob, truthy]
  have h0 : (getVal (recordCompletions "email-queue"
      [{ timestamp := some 0, processedOn := some 5 }]) "email-queue").getD initMetrics
      = perfState (jsAdd (some 0) (some 1)) 0 0 := by
    rw [getVal_recordCompletions, initMetrics_eq_perfState, List.foldl_cons,
      List.foldl_nil]
    exact completedStep_perfState_skip _ _ _ _ hj
  refine ⟨?_, ?_, ?_, ?_, ?_⟩
  · rw [h0]; simp [perfState]
  · rw [h0]; simp [perfState]
  · norm_num [specProcessingTimes, List.filterMap_cons]
  · norm_num [specMean]
  · norm_num

/-- C4 (amended): after any sequence of completed events,
`jobCountForAverage`, `totalProcessingTimeMs` and `avgProcessingTimeMs` are
exactly the count, sum and arithmetic mean (0 when the count is 0) of the
processing times of those completed events whose two timestamps were both
present and truthy (nonzero). -/
theorem avg_is_mean_of_truthy_times (queueName : String) (jobs : List Job) :
    ((getVal (recordCompletions queueName jobs) queueName).getD initMetrics).jobCount
        = some (((truthyTimes jobs).length : ℕ) : ℚ) ∧
    ((getVal (recordCompletions queueName jobs) queueName).getD
        initMetrics).totalProcessingTime = some ((truthyTimes jobs).sum) ∧
    ((getVal (recordCompletions queueName jobs) queueName).getD
        initMetrics).avgProcessingTime = some (specMean (truthyTimes jobs)) := by
  rw [getVal_recordCompletions, initMetrics_eq_perfState,
    foldl_completedStep_perfState]
  refine ⟨?_, ?_, ?_⟩ <;> simp [perfState, specMean]

/-- C5: ingesting a sequence of `failed` events bumps the queue's `failed`
counter by exactly the number of events and leaves `completed`,
`totalProcessingTime`, `jobCount` and `avgProcessingTime` (and every other
queue's entry) unchanged. -/
theorem failed_events_only_bump_failed (performance : List (String × PerfEntry))
    (queueName : String) (jobs : List Job) (h : jobs ≠ []) :
    jobs.foldl (fun p j => updatePerformanceMetrics p queueName "failed" j)
      performance
      = setVal performance queueName
          { (getVal performance queueName).getD initMetrics with
            failed := jsAdd ((getVal performance queueName).getD initMetrics).failed
              (some ((jobs.length : ℕ) : ℚ)) } := by
  cases hv : getVal performance queueName with
  | some m =>
    rw [getVal_failed_fold queueName jobs performance m hv]
    simp [hv]
  | none =>
    cases jobs with
    | nil => exact absurd rfl h
    | cons j js =>
      rw [List.foldl_cons]
      have h1 : updatePerformanceMetrics performance queueName "failed" j
          = setVal performance queueName { initMetrics with failed := some 1 } := by
        simp [updatePerformanceMetrics, hv, initMetrics, jsAdd]
      rw [h1, getVal_failed_fold queueName js
        (setVal performance queueName { initMetrics with failed := some 1 })
        { initMetrics with failed := some 1 } (getVal_setVal_self ..),
        setVal_setVal]
      simp only [hv, Option.getD_none]
      congr 1
      simp only [initMetrics, jsAdd, List.length_cons]
      norm_num
      ring

/-- Witness for C5: three failed events from an empty store set the failed
count to 3. -/
theorem failed_events_only_bump_failed_witness :
    ([({} : Job), {}, {}]).foldl
      (fun p j => updatePerformanceMetrics p "q" "failed" j) []
      = setVal [] "q"
          { (getVal ([] : List (String × PerfEntry)) "q").getD initMetrics with
            failed := jsAdd ((getVal ([] : List (String × PerfEntry)) "q").getD
              initMetrics).failed (some ((([({} : Job), {}, {}]).length : ℕ) : ℚ)) } :=
  failed_events_only_bump_failed [] "q" [({} : Job), {}, {}] (by simp)

/-- C6: evaluation of the 60-second rollup at a failing input.  With one
per-queue metric (2 completed, 1 failed, average 10 ms) the first tick
writes `totalJobs = 3` and average 10 into the `system` entry, but the
second tick — which reduces over the previously written `system` entry as
well — computes `totalJobs = NaN` (modelled `none`) instead of the claimed
per-queue sum 3, because the `system` entry has no `completed`/`failed`
fields. -/
theorem rollup_second_tick_loses_totalJobs :
    ((getVal (systemRollup [("email-queue", sampleQueueMetric)] 60) "system").getD
        {}).totalJobs = some 3 ∧
    ((getVal (systemRollup [("email-queue", sampleQueueMetric)] 60) "system").getD
        {}).avgProcessingTime = some 10 ∧
    ((getVal (systemRollup (systemRollup [("email-queue", sampleQueueMetric)] 60)
        120) "system").getD {}).totalJobs = none := by
  have t1 : systemRollup [("email-queue", sampleQueueMetric)] 60
      = [("email-queue", sampleQueueMetric),
         ("system", { totalJobs := some 3, avgProcessingTime := some 10,
                      timestamp := some 60 })] := by
    simp [systemRollup, sampleQueueMetric, jsAdd, jsDiv, jsOrZero, setVal]
    norm_num
  have t2 : systemRollup [("email-queue", sampleQueueMetric),
        ("system", { totalJobs := some 3, avgProcessingTime := some 10,
                     timestamp := some 60 })] 120
      = [("email-queue", sampleQueueMetric),
         ("system", { totalJobs := none, avgProcessingTime := some 10,
                      timestamp := some 120 })] := by
    simp [systemRollup, sampleQueueMetric, jsAdd, jsDiv, jsOrZero, setVal]
  rw [t1, t2]
  simp [getVal]

/-- C7 counterexample: a tick of the performance pass over a store holding
only the synthetic `system` entry (average 35000 ms, no `completed`/`failed`
fields) appends a slow-processing alert although that entry does not satisfy
`completed + failed > 0` — the slow-processing check is not guarded by the
totals. -/
theorem perf_pass_alert_without_jobs :
    checkPerformanceAlerts [("system", sampleSystemEntry)] [] 7
      = [mkAlert "system" "slow-processing" (some "Slow processing") 7] ∧
    jsGt (jsAdd sampleSystemEntry.completed sampleSystemEntry.failed) (some 0)
      = false := by
  constructor
  · norm_num [checkPerformanceAlerts, sampleSystemEntry, jsGt, jsAdd, jsDiv,
      checkForAlerts, pushBounded, List.foldl_cons, List.foldl_nil]
  · simp [sampleSystemEntry, jsAdd, jsGt]

/-- C7 (amended): each tick of the performance pass appends, per performance
entry in iteration order, a slow-processing alert exactly when its average
exceeds 30000 ms (the totals impose no guard on this check) and a
high-failure-rate alert exactly when `completed + failed > 0` and the
failure ratio exceeds 1/5, every append going through the bounded alert
log. -/
theorem checkPerformanceAlerts_characterization
    (performance : List (String × PerfEntry)) (alerts : List Alert) (now : Nat) :
    checkPerformanceAlerts performance alerts now
      = (perfAlertsGenerated performance now).foldl (pushBounded 50) alerts := by
  induction performance generalizing alerts with
  | nil => simp [checkPerformanceAlerts, perfAlertsGenerated]
  | cons p ps ih =>
    simp only [checkPerformanceAlerts, List.foldl_cons, perfAlertsGenerated,
      List.map_cons, List.flatten_cons, List.foldl_append] at ih ⊢
    rw [ih]
    congr 1
    by_cases h1 : jsGt p.2.avgProcessingTime (some 30000) = true <;>
      simp [h1, checkForAlerts] <;> split_ifs <;> simp [checkForAlerts]

/-- C8: `removeRecurringJob` returns `true` and removes the entry by its key
when a repeatable job with the given name exists, returns the backend
unchanged with `false` when none does, and — when backend names are unique,
as the spec's registry requires — a second remove of the same name returns
`false`. -/
theorem removeRecurringJob_contract (backend : List RepeatableJob) (name : String) :
    ((∃ j ∈ backend, j.name = name) → (removeRecurringJob backend name).2 = true) ∧
    ((∀ j ∈ backend, j.name ≠ name) →
      removeRecurringJob backend name = (backend, false)) ∧
    ((backend.map RepeatableJob.name).Nodup →
      (removeRecurringJob (removeRecurringJob backend name).1 name).2 = false) := by
  refine ⟨?_, ?_, ?_⟩
  · rintro ⟨j, hj, hn⟩
    cases hf : backend.find? (fun x => x.name == name) with
    | some job => simp [removeRecurringJob, hf]
    | none =>
      exfalso
      have h2 := List.find?_eq_none.mp hf j hj
      simp [hn] at h2
  · intro hall
    cases hf : backend.find? (fun x => x.name == name) with
    | some job =>
      exact absurd (by simpa using List.find?_some hf)
        (hall job (List.mem_of_find?_eq_some hf))
    | none => simp [removeRecurringJob, hf]
  · intro hnd
    cases hf : backend.find? (fun x => x.name == name) with
    | none => simp [removeRecurringJob, hf]
    | some job =>
      have hmem := List.mem_of_find?_eq_some hf
      have hname : job.name = name := by simpa using List.find?_some hf
      have hnone : (removeRepeatableByKey backend job.key).find?
          (fun x => x.name == name) = none := by
        rw [List.find?_eq_none]
        intro x hx hxe
        have hx' : x ∈ backend.filter (fun j => j.key != job.key) := hx
        have hx1 : x ∈ backend := List.mem_of_mem_filter hx'
        have hx2 := (List.mem_filter.mp hx').2
        have hxn : x.name = name := by simpa using hxe
        have hxj : x = job :=
          List.inj_on_of_nodup_map hnd hx1 hmem (by rw [hxn, hname])
        rw [hxj] at hx2
        simp at hx2
      have hfst : (removeRecurringJob backend name).1
          = removeRepeatableByKey backend job.key := by
        simp [removeRecurringJob, hf]
      rw [hfst]
      simp [removeRecurringJob, hnone]

/-- Witness for C8: removing `nightly` from a one-entry backend returns
`true`, a second remove returns `false`, and removing an absent name leaves
the backend unchanged with `false`. -/
theorem removeRecurringJob_contract_witness :
    (removeRecurringJob [sampleRepeatable] "nightly").2 = true ∧
    (removeRecurringJob (removeRecurringJob [sampleRepeatable] "nightly").1
      "nightly").2 = false ∧
    removeRecurringJob [sampleRepeatable] "absent" = ([sampleRepeatable], false) := by
  have h := removeRecurringJob_contract [sampleRepeatable] "nightly"
  have h2 := removeRecurringJob_contract [sampleRepeatable] "absent"
  exact ⟨h.1 ⟨sampleRepeatable, by simp, by decide⟩, h.2.2 (by decide),
    h2.2.1 (by decide)⟩

/-- C9 counterexample: with two stored events at instants 1 and 2 and
limit 2, the per-queue branch of the events route returns them in insertion
(timestamp-ascending) order — not sorted newest-first as claimed; only the
global branch sorts. -/
theorem events_route_per_queue_unsorted :
    getEventsRoute [("q", { emptySnapshot with
        events := [sampleEvent1, sampleEvent2] })] (some "q") 2
      = [sampleEvent1, sampleEvent2] ∧
    ¬ List.Sorted tsDesc (getEventsRoute [("q", { emptySnapshot with
        events := [sampleEvent1, sampleEvent2] })] (some "q") 2) := by
  have h : getEventsRoute [("q", { emptySnapshot with
      events := [sampleEvent1, sampleEvent2] })] (some "q") 2
      = [sampleEvent1, sampleEvent2] := by
    simp [getEventsRoute, getVal, jsSliceNeg, emptySnapshot]
  refine ⟨h, ?_⟩
  rw [h]
  intro hs
  have h12 : tsDesc sampleEvent1 sampleEvent2 :=
    List.rel_of_sorted_cons hs sampleEvent2 (by simp)
  simp [tsDesc, sampleEvent1, sampleEvent2] at h12

/-- C9 (amended): for `limit ≥ 1` the per-queue branch returns the `limit`
most recent stored events as a suffix of the log in insertion order, and
the global branch returns at most `limit` events sorted newest-first. -/
theorem events_route_amended (queues : List (String × QueueSnapshot))
    (qn : String) (limit : Nat) (h : 1 ≤ limit) :
    getEventsRoute queues (some qn) limit
        = (((getVal queues qn).map QueueSnapshot.events).getD []).drop
            ((((getVal queues qn).map QueueSnapshot.events).getD []).length - limit) ∧
    (getEventsRoute queues (some qn) limit).length ≤ limit ∧
    (getEventsRoute queues none limit).length ≤ limit ∧
    List.Sorted tsDesc (getEventsRoute queues none limit) := by
  have h1 : getEventsRoute queues (some qn) limit
      = (((getVal queues qn).map QueueSnapshot.events).getD []).drop
          ((((getVal queues qn).map QueueSnapshot.events).getD []).length - limit) := by
    simp only [getEventsRoute, jsSliceNeg]
    rw [if_neg (by omega)]
  refine ⟨h1, ?_, ?_, ?_⟩
  · rw [h1, List.length_drop]
    omega
  · simp only [getEventsRoute, List.length_take]
    omega
  · exact List.Pairwise.sublist (List.take_sublist _ _)
      (List.sorted_insertionSort tsDesc _)

/-- Witness for C9 (amended) at limit 1 over a one-event store. -/
theorem events_route_amended_witness :
    getEventsRoute [("q", { emptySnapshot with events := [sampleEvent1] })]
        (some "q") 1
        = (((getVal [("q", { emptySnapshot with events := [sampleEvent1] })]
            "q").map QueueSnapshot.events).getD []).drop
            ((((getVal [("q", { emptySnapshot with events := [sampleEvent1] })]
              "q").map QueueSnapshot.events).getD []).length - 1) ∧
    (getEventsRoute [("q", { emptySnapshot with events := [sampleEvent1] })]
        (some "q") 1).length ≤ 1 ∧
    (getEventsRoute [("q", { emptySnapshot with events := [sampleEvent1] })]
        none 1).length ≤ 1 ∧
    List.Sorted tsDesc (getEventsRoute
      [("q", { emptySnapshot with events := [sampleEvent1] })] none 1) :=
  events_route_amended [("q", { emptySnapshot with events := [sampleEvent1] })]
    "q" 1 (by norm_num)

/-- C10: ingesting an event for a queue with no snapshot creates a record
holding only the event log — every count field, the paused flag and
`lastUpdated` stay absent, also after further events — and `getQueueStatus`
then returns this partial record rather than the not-found result. -/
theorem lazy_snapshot_partial (queues : List (String × QueueSnapshot))
    (queueName event : String) (job : Option Job) (error : Option String)
    (now : Nat) (rest : List EvIn)
    (h : getVal queues queueName = none) :
    getVal (addMonitoringEvent queues queueName event job error now) queueName
        = some { emptySnapshot with
            events := [mkMonitoringEvent queueName event job error now] } ∧
    getQueueStatus (addMonitoringEvent queues queueName event job error now)
        queueName
        = some { emptySnapshot with
            events := [mkMonitoringEvent queueName event job error now] } ∧
    (∀ s, getVal (rest.foldl
          (fun qs i => addMonitoringEvent qs queueName i.event i.job i.error i.now)
          (addMonitoringEvent queues queueName event job error now)) queueName
        = some s →
      s.waiting = none ∧ s.active = none ∧ s.completed = none ∧ s.failed = none ∧
      s.delayed = none ∧ s.paused = none ∧ s.lastUpdated = none) := by
  have h1 : addMonitoringEvent queues queueName event job error now
      = setVal queues queueName { emptySnapshot with
          events := [mkMonitoringEvent queueName event job error now] } := by
    simp [addMonitoringEvent, h, pushBounded, emptySnapshot]
  have h2 : getVal (addMonitoringEvent queues queueName event job error now)
      queueName
      = some { emptySnapshot with
          events := [mkMonitoringEvent queueName event job error now] } := by
    rw [h1]
    exact getVal_setVal_self ..
  refine ⟨h2, h2, ?_⟩
  intro s hs
  rw [getVal_ingest_fold queueName rest _ _ h2] at hs
  have hs2 := Option.some.injEq .. ▸ hs
  simp only [Option.some.injEq] at hs
  rw [← hs]
  simp [emptySnapshot]

/-- Witness for C10: a first `waiting` event for unknown queue `q` followed
by one more event. -/
theorem lazy_snapshot_partial_witness :
    getVal (addMonitoringEvent [] "q" "waiting" none none 1) "q"
        = some { emptySnapshot with
            events := [mkMonitoringEvent "q" "waiting" none none 1] } ∧
    getQueueStatus (addMonitoringEvent [] "q" "waiting" none none 1) "q"
        = some { emptySnapshot with
            events := [mkMonitoringEvent "q" "waiting" none none 1] } ∧
    (∀ s, getVal ([({ event := "active", now := 2 } : EvIn)].foldl
          (fun qs i => addMonitoringEvent qs "q" i.event i.job i.error i.now)
          (addMonitoringEvent [] "q" "waiting" none none 1)) "q" = some s →
      s.waiting = none ∧ s.active = none ∧ s.completed = none ∧ s.failed = none ∧
      s.delayed = none ∧ s.paused = none ∧ s.lastUpdated = none) :=
  lazy_snapshot_partial [] "q" "waiting" none none 1
    [({ event := "active", now := 2 } : EvIn)] (by simp [getVal])

end BullMon
